import Mathlib

/-!
Shallow embedding of `tools/run_metrics.py` (Danesfield metrics runner).

The script's `main` parses arguments, prepares a working directory, stages
the candidate rasters into it, writes a config file, reprojects the staged
rasters into the reference CRS, coerces the DSM to Float32, and finally
invokes the external `core3dmetrics` engine.

We embed the orchestration as a pure function producing the ordered list of
filesystem/external effects (`Step`) the script performs.  Fallible effects
are handled by an oracle `ok : Step → Bool`; `runTrace` cuts the planned
trace at the first failing effect, mirroring Python's fail-fast exception
propagation.  A small filesystem semantics (`applyStep`) interprets the
effects over an abstract store `String → Option Nat` for frame properties.
-/

namespace RunMetrics

/-- Model of Python `os.path.basename` (POSIX): the characters after the
last `/` of the path (empty when the path ends in `/` or is empty). -/
def basename (s : String) : String :=
  ⟨((s.data.reverse.takeWhile (fun c => c ≠ '/')).reverse)⟩

/-- Model of Python `os.path.join a b` (POSIX, two arguments): `b` when `b`
is absolute; otherwise `a` and `b` joined with a `/` unless `a` is empty or
already ends in `/`. -/
def osPathJoin (a b : String) : String :=
  if b.data.head? = some '/' then b
  else if a = "" then b
  else if a.data.getLast? = some '/' then a ++ b
  else a ++ "/" ++ b

/-- Model of Python `s.split('.')[0]`: the characters before the first `.`. -/
def strBeforeDot (s : String) : String :=
  ⟨s.data.takeWhile (fun c => c ≠ '.')⟩

/-- Errors surfaced by the embedded script (Python exceptions). -/
inductive PyError where
  /-- `os.mkdir` on an existing path raises `FileExistsError`. -/
  | fileExistsError
  deriving DecidableEq, Repr

/-- One filesystem/external effect performed by the script, in the order the
script issues them. -/
inductive Step where
  /-- `os.mkdir` / `os.makedirs`. -/
  | mkdir (path : String)
  /-- `shutil.copyfile src dst`. -/
  | copy (src dst : String)
  /-- writing the rendered config document to `path`
  (`generate_config_file`). -/
  | writeConfig (path : String)
  /-- `get_coordinate_system path` (read-only CRS resolution). -/
  | getCRS (path : String)
  /-- `convert_coordinate_system path crs` (in-place reprojection). -/
  | convertCRS (path : String) (crs : String)
  /-- `convert_float32 path` (in-place pixel-type coercion). -/
  | convertFloat32 (path : String)
  /-- `core3dmetrics.main ['--config', cfg, '--reference', ref, '--test',
  test, '--output', out]`. -/
  | invokeEngine (cfg ref test out : String)
  deriving DecidableEq, Repr

/-- Parsed command-line arguments of `run_metrics.py`.  `--output-dir`,
`--mtl`, `--dtm` are optional (argparse default `None`); the rest are
required. -/
structure Args where
  output_dir : Option String
  ref_dir : String
  ref_prefix : String
  dsm : String
  cls : String
  mtl : Option String
  dtm : Option String
  deriving DecidableEq, Repr

/-- `create_working_dir`: names the directory
`'metrics-' + str(datetime.datetime.now().timestamp()).split('.')[0]` and
creates it with a bare `os.mkdir`, which raises `FileExistsError` when the
path already exists.  The wall clock reading `str(timestamp())` is modelled
as the decimal string `secStr ++ "." ++ fracStr` (integer-seconds part and
fractional part); `dirs` is the set of paths existing on disk. -/
def create_working_dir (secStr fracStr : String) (dirs : String → Bool) :
    Except PyError String :=
  let working_dir := "metrics-" ++ strBeforeDot (secStr ++ "." ++ fracStr)
  if dirs working_dir then Except.error PyError.fileExistsError
  else Except.ok working_dir

/-- Lines 97–104 of `main`: `if args.output_dir:` (Python truthiness, so
`None` and `''` both fall through to `create_working_dir`); an explicit
output directory is created with `os.makedirs` only when `os.path.exists`
is false, and reused otherwise.  Returns the working directory together
with the directory-creation effects performed. -/
def workingDirOf (dirs : String → Bool) (secStr fracStr : String)
    (args : Args) : Except PyError (String × List Step) :=
  match args.output_dir with
  | some od =>
      if od = "" then
        (create_working_dir secStr fracStr dirs).map fun w => (w, [Step.mkdir w])
      else
        Except.ok (od, if dirs od then [] else [Step.mkdir od])
  | none =>
      (create_working_dir secStr fracStr dirs).map fun w => (w, [Step.mkdir w])

/-- Staged path of an input: `os.path.join(working_dir, os.path.basename f)`
(lines 108–109, 117, 122). -/
def stagedPath (wd f : String) : String := osPathJoin wd (basename f)

/-- Reference DSM path: `os.path.join(args.ref_dir, args.ref_prefix +
'-DSM.tif')` (line 107). -/
def refDsmPath (args : Args) : String :=
  osPathJoin args.ref_dir (args.ref_prefix ++ "-DSM.tif")

/-- Lines 112–125: copy the required DSM and CLS, then MTL and DTM only when
supplied (`is not None`). -/
def copySteps (args : Args) (wd : String) : List Step :=
  [Step.copy args.dsm (stagedPath wd args.dsm),
   Step.copy args.cls (stagedPath wd args.cls)] ++
  (match args.mtl with
   | some m => [Step.copy m (stagedPath wd m)]
   | none => []) ++
  (match args.dtm with
   | some d => [Step.copy d (stagedPath wd d)]
   | none => [])

/-- The staged MTL path: the copy target when `--mtl` was supplied, the
empty string otherwise (lines 116–120). -/
def stagedMtl (args : Args) (wd : String) : String :=
  match args.mtl with
  | some m => stagedPath wd m
  | none => ""

/-- The staged DTM path: the copy target when `--dtm` was supplied, the
empty string otherwise (lines 121–125). -/
def stagedDtm (args : Args) (wd : String) : String :=
  match args.dtm with
  | some d => stagedPath wd d
  | none => ""

/-- The config file path: `os.path.join(working_dir,
config.get_filename(test_dsm, test_cls))` (`generate_config_file`,
line 48).  `gf` stands for `config.get_filename`, whose module is outside
this file's source scope. -/
def cfgPath (gf : String → String → String) (args : Args) (wd : String) :
    String :=
  osPathJoin wd (gf (stagedPath wd args.dsm) (stagedPath wd args.cls))

/-- Lines 134–140: resolve the reference CRS (`crsOf` stands for what
`get_coordinate_system` returns per path), then convert the staged DSM and
CLS, and the staged MTL/DTM when their staged path is truthy
(`if test_mtl:` — nonempty string). -/
def crsSteps (crsOf : String → String) (args : Args) (wd : String) :
    List Step :=
  let ref_proj4 := crsOf (refDsmPath args)
  [Step.getCRS (refDsmPath args),
   Step.convertCRS (stagedPath wd args.dsm) ref_proj4,
   Step.convertCRS (stagedPath wd args.cls) ref_proj4] ++
  (if stagedMtl args wd ≠ "" then
    [Step.convertCRS (stagedMtl args wd) ref_proj4] else []) ++
  (if stagedDtm args wd ≠ "" then
    [Step.convertCRS (stagedDtm args wd) ref_proj4] else [])

/-- The effects of `main` after the working directory is ready
(lines 106–153): stage copies, write the config, normalize coordinate
systems, coerce the DSM to Float32, invoke the engine. -/
def restSteps (gf : String → String → String) (crsOf : String → String)
    (args : Args) (wd : String) : List Step :=
  copySteps args wd ++
  [Step.writeConfig (cfgPath gf args wd)] ++
  crsSteps crsOf args wd ++
  [Step.convertFloat32 (stagedPath wd args.dsm),
   Step.invokeEngine (cfgPath gf args wd) args.ref_dir wd wd]

/-- The outcome of a run of `main` in which every effect succeeds: the
working directory, the staged paths bound to the Python locals, the config
path, and the ordered effect trace. -/
structure MainResult where
  wd : String
  test_dsm : String
  test_cls : String
  test_mtl : String
  test_dtm : String
  cfg : String
  steps : List Step
  deriving DecidableEq, Repr

/-- The embedding of `main` (lines 94–153): prepare the working directory,
then plan the ordered effect trace.  Only the working-directory step can
fail structurally (`FileExistsError`); all other effects are fallible via
the oracle used by `runTrace`. -/
def mainRun (gf : String → String → String) (crsOf : String → String)
    (dirs : String → Bool) (secStr fracStr : String) (args : Args) :
    Except PyError MainResult :=
  (workingDirOf dirs secStr fracStr args).map fun p =>
    { wd := p.1
      test_dsm := stagedPath p.1 args.dsm
      test_cls := stagedPath p.1 args.cls
      test_mtl := stagedMtl args p.1
      test_dtm := stagedDtm args p.1
      cfg := cfgPath gf args p.1
      steps := p.2 ++ restSteps gf crsOf args p.1 }

/-- Fail-fast execution: the trace actually attempted, cut at (and
including) the first effect the oracle fails. -/
def runTrace (ok : Step → Bool) : List Step → List Step
  | [] => []
  | s :: r => if ok s then s :: runTrace ok r else [s]

/-- The first failing effect of a run, if any. -/
def firstFail (ok : Step → Bool) : List Step → Option Step
  | [] => none
  | s :: r => if ok s then firstFail ok r else some s

/-- Pipeline phase of an effect, following the script's stage order:
directory setup, staging copies, config writing, coordinate normalization,
pixel-type normalization, engine dispatch. -/
def phase : Step → Nat
  | Step.mkdir _ => 0
  | Step.copy _ _ => 1
  | Step.writeConfig _ => 2
  | Step.getCRS _ => 3
  | Step.convertCRS _ _ => 3
  | Step.convertFloat32 _ => 4
  | Step.invokeEngine _ _ _ _ => 5

/-- The paths an effect writes to.  Modelled from the spec for the helpers
outside this file's source scope: `convert_coordinate_system` and
`convert_float32` "mutate the raster at `path` in place" and touch no other
path; `get_coordinate_system` is read-only; the external engine's own
outputs are opaque and out of this core's scope. -/
def stepWrites : Step → List String
  | Step.copy _ dst => [dst]
  | Step.writeConfig p => [p]
  | Step.convertCRS p _ => [p]
  | Step.convertFloat32 p => [p]
  | _ => []

/-- All paths written by a trace. -/
def writtenPaths (l : List Step) : List String := l.flatMap stepWrites

/-- Abstract filesystem: file contents are opaque tokens; `none` means the
path does not exist. -/
abbrev FS := String → Option Nat

/-- Filesystem semantics of one effect.  `reproj`/`toF32` abstract the
content transformations of `convert_coordinate_system`/`convert_float32`
(modelled from the spec: both mutate only the raster at the given path, in
place); `cfgC` is the rendered config document's content; `mkdir`,
`getCRS` and the opaque external engine do not modify any file this core
owns. -/
def applyStep (reproj : Nat → String → Nat) (toF32 : Nat → Nat)
    (cfgC : Nat) (fs : FS) : Step → FS
  | Step.mkdir _ => fs
  | Step.getCRS _ => fs
  | Step.copy src dst => fun p => if p = dst then fs src else fs p
  | Step.writeConfig path => fun p => if p = path then some cfgC else fs p
  | Step.convertCRS path c =>
      fun p => if p = path then (fs path).map (fun v => reproj v c) else fs p
  | Step.convertFloat32 path =>
      fun p => if p = path then (fs path).map toF32 else fs p
  | Step.invokeEngine _ _ _ _ => fs

/-- Filesystem semantics of a trace, applied left to right. -/
def applySteps (reproj : Nat → String → Nat) (toF32 : Nat → Nat)
    (cfgC : Nat) (fs : FS) : List Step → FS
  | [] => fs
  | s :: r => applySteps reproj toF32 cfgC (applyStep reproj toF32 cfgC fs s) r

/-- Recognizer for the engine-dispatch effect. -/
def isEngine : Step → Bool
  | Step.invokeEngine _ _ _ _ => true
  | _ => false

/-- Recognizer for staging-copy effects. -/
def isCopy : Step → Bool
  | Step.copy _ _ => true
  | _ => false

/-- Recognizer for reprojection effects. -/
def isConvertCRS : Step → Bool
  | Step.convertCRS _ _ => true
  | _ => false

/-- Recognizer for the pixel-type coercion effect. -/
def isConvertFloat32 : Step → Bool
  | Step.convertFloat32 _ => true
  | _ => false

/-- Planned trace of a run; `[]` when the run already failed while preparing
the working directory. -/
def runSteps : Except PyError MainResult → List Step
  | Except.ok r => r.steps
  | Except.error _ => []

/-! Concrete fixture (a stand-in `config.get_filename`, a constant CRS
resolver, an all-existing filesystem, and a full argument set) used to
instantiate the theorems below on explicit inputs. -/

/-- Fixture stand-in for `config.get_filename`. -/
def gfW : String → String → String := fun _ _ => "m.config"

/-- Fixture CRS resolver: every raster reads as CRS `"P4"`. -/
def crsW : String → String := fun _ => "P4"

/-- Fixture filesystem-existence predicate: every path exists. -/
def dirsW : String → Bool := fun _ => true

/-- Fixture argument set with all four candidate files supplied and an
explicit, existing output directory. -/
def argsW : Args :=
  { output_dir := some "out", ref_dir := "refs", ref_prefix := "AOI",
    dsm := "in/d.tif", cls := "in/c.tif",
    mtl := some "in/m.tif", dtm := some "in/t.tif" }

/-- The run outcome on the fixture arguments. -/
def resW : MainResult :=
  { wd := "out", test_dsm := "out/d.tif", test_cls := "out/c.tif",
    test_mtl := "out/m.tif", test_dtm := "out/t.tif", cfg := "out/m.config",
    steps := [Step.copy "in/d.tif" "out/d.tif",
              Step.copy "in/c.tif" "out/c.tif",
              Step.copy "in/m.tif" "out/m.tif",
              Step.copy "in/t.tif" "out/t.tif",
              Step.writeConfig "out/m.config",
              Step.getCRS "refs/AOI-DSM.tif",
              Step.convertCRS "out/d.tif" "P4",
              Step.convertCRS "out/c.tif" "P4",
              Step.convertCRS "out/m.tif" "P4",
              Step.convertCRS "out/t.tif" "P4",
              Step.convertFloat32 "out/d.tif",
              Step.invokeEngine "out/m.config" "refs" "out" "out"] }

/-- Fixture argument set without the optional MTL/DTM inputs. -/
def argsB : Args :=
  { output_dir := some "out", ref_dir := "refs", ref_prefix := "AOI",
    dsm := "in/d.tif", cls := "in/c.tif", mtl := none, dtm := none }

/-- The run outcome on `argsB`. -/
def resB : MainResult :=
  { wd := "out", test_dsm := "out/d.tif", test_cls := "out/c.tif",
    test_mtl := "", test_dtm := "", cfg := "out/m.config",
    steps := [Step.copy "in/d.tif" "out/d.tif",
              Step.copy "in/c.tif" "out/c.tif",
              Step.writeConfig "out/m.config",
              Step.getCRS "refs/AOI-DSM.tif",
              Step.convertCRS "out/d.tif" "P4",
              Step.convertCRS "out/c.tif" "P4",
              Step.convertFloat32 "out/d.tif",
              Step.invokeEngine "out/m.config" "refs" "out" "out"] }

/-- Fixture oracle modelling a test DSM that copies fine but is unreadable
as a raster: every effect succeeds except reprojecting the staged DSM. -/
def okB : Step → Bool :=
  fun s => !(decide (s = Step.convertCRS "out/d.tif" "P4"))

/-- Fixture argument set whose DSM and CLS inputs share the base name
`x.tif` while living in different directories. -/
def argsC : Args :=
  { output_dir := some "out", ref_dir := "refs", ref_prefix := "AOI",
    dsm := "a/x.tif", cls := "b/x.tif", mtl := none, dtm := none }

/-- The run outcome on `argsC`: both staged paths collide on `out/x.tif`. -/
def resC : MainResult :=
  { wd := "out", test_dsm := "out/x.tif", test_cls := "out/x.tif",
    test_mtl := "", test_dtm := "", cfg := "out/m.config",
    steps := [Step.copy "a/x.tif" "out/x.tif",
              Step.copy "b/x.tif" "out/x.tif",
              Step.writeConfig "out/m.config",
              Step.getCRS "refs/AOI-DSM.tif",
              Step.convertCRS "out/x.tif" "P4",
              Step.convertCRS "out/x.tif" "P4",
              Step.convertFloat32 "out/x.tif",
              Step.invokeEngine "out/m.config" "refs" "out" "out"] }

/-- Fixture argument set with no explicit output directory. -/
def argsT : Args :=
  { output_dir := none, ref_dir := "refs", ref_prefix := "AOI",
    dsm := "in/d.tif", cls := "in/c.tif", mtl := none, dtm := none }

theorem runTrace_append (ok : Step → Bool) (l₁ l₂ : List Step) :
    runTrace ok (l₁ ++ l₂) =
      if l₁.all ok then l₁ ++ runTrace ok l₂ else runTrace ok l₁ := by
  induction l₁ with
  | nil => simp [runTrace]
  | cons s r ih =>
      by_cases h : ok s = true <;>
        simp [runTrace, h, ih, List.all_cons] <;> split <;> simp

theorem mem_of_mem_runTrace {ok : Step → Bool} {l : List Step} {s : Step}
    (h : s ∈ runTrace ok l) : s ∈ l := by
  induction l with
  | nil => simpa [runTrace] using h
  | cons a r ih =>
      by_cases ha : ok a = true
      · rcases (by simpa [runTrace, ha] using h : s = a ∨ s ∈ runTrace ok r) with
          h' | h'
        · simp [h']
        · exact List.mem_cons_of_mem _ (ih h')
      · simp only [runTrace, ha, if_neg] at h
        simp_all

theorem runTrace_of_all {ok : Step → Bool} {l : List Step}
    (h : ∀ s ∈ l, ok s = true) : runTrace ok l = l := by
  induction l with
  | nil => rfl
  | cons a r ih =>
      have ha := h a (by simp)
      simp [runTrace, ha, ih fun s hs => h s (List.mem_cons_of_mem _ hs)]

theorem writtenPaths_append (l₁ l₂ : List Step) :
    writtenPaths (l₁ ++ l₂) = writtenPaths l₁ ++ writtenPaths l₂ := by
  simp [writtenPaths]

theorem writtenPaths_subset_of_runTrace (ok : Step → Bool) (l : List Step)
    {p : String} (h : p ∈ writtenPaths (runTrace ok l)) : p ∈ writtenPaths l := by
  simp only [writtenPaths, List.mem_flatMap] at h ⊢
  obtain ⟨s, hs, hp⟩ := h
  exact ⟨s, mem_of_mem_runTrace hs, hp⟩

/-- One-step frame property: a path an effect does not write keeps its
content. -/
theorem applyStep_frame (reproj : Nat → String → Nat) (toF32 : Nat → Nat)
    (cfgC : Nat) (fs : FS) (s : Step) {p : String}
    (h : p ∉ stepWrites s) : applyStep reproj toF32 cfgC fs s p = fs p := by
  cases s <;> simp [applyStep, stepWrites] at h ⊢ <;> simp [h]

/-- Frame property of a trace: a path no effect of the trace writes keeps
its content. -/
theorem applySteps_frame (reproj : Nat → String → Nat) (toF32 : Nat → Nat)
    (cfgC : Nat) (fs : FS) (l : List Step) {p : String}
    (h : p ∉ writtenPaths l) : applySteps reproj toF32 cfgC fs l p = fs p := by
  induction l generalizing fs with
  | nil => rfl
  | cons s r ih =>
      simp only [writtenPaths, List.flatMap_cons, List.mem_append] at h
      push_neg at h
      rw [applySteps, ih (applyStep reproj toF32 cfgC fs s) h.2,
        applyStep_frame reproj toF32 cfgC fs s h.1]

/-- Existence preservation (no deletion): no effect removes a file, provided
every staging copy reads an existing source that no effect overwrites. -/
theorem applySteps_preserves_exists (reproj : Nat → String → Nat)
    (toF32 : Nat → Nat) (cfgC : Nat) (fs : FS) (l : List Step)
    (hsrc : ∀ src dst, Step.copy src dst ∈ l →
      fs src ≠ none ∧ src ∉ writtenPaths l) :
    ∀ p, fs p ≠ none → applySteps reproj toF32 cfgC fs l p ≠ none := by
  induction l generalizing fs with
  | nil => intro p hp; exact hp
  | cons s r ih =>
      intro p hp
      rw [applySteps]
      refine ih (applyStep reproj toF32 cfgC fs s) ?_ p ?_
      · intro src dst hmem
        have h := hsrc src dst (List.mem_cons_of_mem _ hmem)
        have hsplit : src ∉ stepWrites s ∧ src ∉ writtenPaths r := by
          have h2 := h.2
          simp only [writtenPaths, List.flatMap_cons, List.mem_append] at h2
          push_neg at h2
          exact ⟨h2.1, h2.2⟩
        exact ⟨by rw [applyStep_frame reproj toF32 cfgC fs s hsplit.1]; exact h.1,
          hsplit.2⟩
      · cases s with
        | copy src₀ dst₀ =>
            by_cases hpd : p = dst₀
            · subst hpd
              simpa [applyStep] using (hsrc src₀ p (by simp)).1
            · simpa [applyStep, hpd] using hp
        | writeConfig q =>
            by_cases hpq : p = q <;> simp [applyStep, hpq] <;> simp_all
        | convertCRS q c =>
            by_cases hpq : p = q
            · subst hpq; simpa [applyStep] using hp
            · simpa [applyStep, hpq] using hp
        | convertFloat32 q =>
            by_cases hpq : p = q
            · subst hpq; simpa [applyStep] using hp
            · simpa [applyStep, hpq] using hp
        | mkdir q => exact hp
        | getCRS q => exact hp
        | invokeEngine a b c d => exact hp

theorem eq_empty_of_length_eq_zero {a : String} (h : a.length = 0) :
    a = "" := by
  cases a with
  | mk d =>
      cases d with
      | nil => rfl
      | cons c r => simp [String.length] at h

theorem append_ne_empty_left {a : String} (b : String) (ha : a ≠ "") :
    a ++ b ≠ "" := by
  intro hc
  have h2 := congrArg String.length hc
  rw [String.length_append] at h2
  simp at h2
  exact ha (eq_empty_of_length_eq_zero (by omega))

theorem osPathJoin_ne_empty {a : String} (b : String) (ha : a ≠ "") :
    osPathJoin a b ≠ "" := by
  unfold osPathJoin
  by_cases h1 : b.data.head? = some '/'
  · rw [if_pos h1]
    intro hc
    subst hc
    simp at h1
  · rw [if_neg h1, if_neg ha]
    by_cases h2 : a.data.getLast? = some '/'
    · rw [if_pos h2]
      exact append_ne_empty_left b ha
    · rw [if_neg h2]
      exact append_ne_empty_left b (append_ne_empty_left "/" ha)

theorem stagedPath_ne_empty {wd : String} (f : String) (h : wd ≠ "") :
    stagedPath wd f ≠ "" :=
  osPathJoin_ne_empty _ h

theorem create_working_dir_ok {secStr fracStr : String} {dirs : String → Bool}
    {wd : String} (h : create_working_dir secStr fracStr dirs = Except.ok wd) :
    wd = "metrics-" ++ strBeforeDot (secStr ++ "." ++ fracStr) ∧
      dirs wd = false := by
  simp only [create_working_dir] at h
  split at h
  · cases h
  · rename_i hdir
    injection h with h'
    subst h'
    exact ⟨rfl, by simpa using hdir⟩

/-- Inversion of the working-directory preparation. -/
theorem workingDirOf_ok {dirs : String → Bool} {secStr fracStr : String}
    {args : Args} {wd : String} {mks : List Step}
    (h : workingDirOf dirs secStr fracStr args = Except.ok (wd, mks)) :
    (∃ od, args.output_dir = some od ∧ od ≠ "" ∧ wd = od ∧
      mks = if dirs od then [] else [Step.mkdir od]) ∨
    ((args.output_dir = none ∨ args.output_dir = some "") ∧
      wd = "metrics-" ++ strBeforeDot (secStr ++ "." ++ fracStr) ∧
      dirs wd = false ∧ mks = [Step.mkdir wd]) := by
  cases hod : args.output_dir with
  | none =>
      simp only [workingDirOf, hod] at h
      cases hc : create_working_dir secStr fracStr dirs with
      | error e => rw [hc] at h; cases h
      | ok w =>
          rw [hc] at h
          simp only [Except.map] at h
          injection h with h'
          injection h' with h1 h2
          subst h1
          subst h2
          obtain ⟨hname, hfree⟩ := create_working_dir_ok hc
          exact Or.inr ⟨Or.inl rfl, hname, hfree, rfl⟩
  | some od =>
      simp only [workingDirOf, hod] at h
      by_cases hempty : od = ""
      · subst hempty
        rw [if_pos rfl] at h
        cases hc : create_working_dir secStr fracStr dirs with
        | error e => rw [hc] at h; cases h
        | ok w =>
            rw [hc] at h
            simp only [Except.map] at h
            injection h with h'
            injection h' with h1 h2
            subst h1
            subst h2
            obtain ⟨hname, hfree⟩ := create_working_dir_ok hc
            exact Or.inr ⟨Or.inr rfl, hname, hfree, rfl⟩
      · rw [if_neg hempty] at h
        injection h with h'
        injection h' with h1 h2
        subst h1
        subst h2
        exact Or.inl ⟨od, rfl, hempty, rfl, rfl⟩

/-- Inversion of `mainRun`: a successful run fixes every field of the
result from the arguments and the working directory. -/
theorem mainRun_ok {gf : String → String → String} {crsOf : String → String}
    {dirs : String → Bool} {secStr fracStr : String} {args : Args}
    {r : MainResult}
    (h : mainRun gf crsOf dirs secStr fracStr args = Except.ok r) :
    ∃ mks, workingDirOf dirs secStr fracStr args = Except.ok (r.wd, mks) ∧
      r.steps = mks ++ restSteps gf crsOf args r.wd ∧
      r.test_dsm = stagedPath r.wd args.dsm ∧
      r.test_cls = stagedPath r.wd args.cls ∧
      r.test_mtl = stagedMtl args r.wd ∧
      r.test_dtm = stagedDtm args r.wd ∧
      r.cfg = cfgPath gf args r.wd := by
  unfold mainRun at h
  cases hw : workingDirOf dirs secStr fracStr args with
  | error e => rw [hw] at h; cases h
  | ok p =>
      obtain ⟨wd0, mks0⟩ := p
      rw [hw] at h
      simp only [Except.map] at h
      injection h with h'
      subst h'
      exact ⟨mks0, rfl, rfl, rfl, rfl, rfl, rfl, rfl⟩

theorem mainRun_wd_ne_empty {gf : String → String → String}
    {crsOf : String → String} {dirs : String → Bool}
    {secStr fracStr : String} {args : Args} {r : MainResult}
    (h : mainRun gf crsOf dirs secStr fracStr args = Except.ok r) :
    r.wd ≠ "" := by
  obtain ⟨mks, hw, -⟩ := mainRun_ok h
  rcases workingDirOf_ok hw with ⟨od, -, hne, hwd, -⟩ | ⟨-, hwd, -⟩
  · exact hwd ▸ hne
  · rw [hwd]
    exact append_ne_empty_left _ (by decide)

theorem mem_copySteps {args : Args} {wd : String} {s : Step} :
    s ∈ copySteps args wd ↔
      s = Step.copy args.dsm (stagedPath wd args.dsm) ∨
      s = Step.copy args.cls (stagedPath wd args.cls) ∨
      (∃ m, args.mtl = some m ∧ s = Step.copy m (stagedPath wd m)) ∨
      (∃ d, args.dtm = some d ∧ s = Step.copy d (stagedPath wd d)) := by
  cases hm : args.mtl <;> cases hd : args.dtm <;>
    simp [copySteps, hm, hd] <;> tauto

theorem mem_crsSteps {crsOf : String → String} {args : Args} {wd : String}
    {s : Step} :
    s ∈ crsSteps crsOf args wd ↔
      s = Step.getCRS (refDsmPath args) ∨
      s = Step.convertCRS (stagedPath wd args.dsm) (crsOf (refDsmPath args)) ∨
      s = Step.convertCRS (stagedPath wd args.cls) (crsOf (refDsmPath args)) ∨
      (stagedMtl args wd ≠ "" ∧
        s = Step.convertCRS (stagedMtl args wd) (crsOf (refDsmPath args))) ∨
      (stagedDtm args wd ≠ "" ∧
        s = Step.convertCRS (stagedDtm args wd) (crsOf (refDsmPath args))) := by
  unfold crsSteps
  by_cases hm : stagedMtl args wd = "" <;> by_cases hd : stagedDtm args wd = "" <;>
    simp [hm, hd] <;> tauto

theorem mem_restSteps {gf : String → String → String} {crsOf : String → String}
    {args : Args} {wd : String} {s : Step} :
    s ∈ restSteps gf crsOf args wd ↔
      s ∈ copySteps args wd ∨
      s = Step.writeConfig (cfgPath gf args wd) ∨
      s ∈ crsSteps crsOf args wd ∨
      s = Step.convertFloat32 (stagedPath wd args.dsm) ∨
      s = Step.invokeEngine (cfgPath gf args wd) args.ref_dir wd wd := by
  simp [restSteps]

theorem mks_shape {dirs : String → Bool} {secStr fracStr : String}
    {args : Args} {wd : String} {mks : List Step}
    (h : workingDirOf dirs secStr fracStr args = Except.ok (wd, mks)) :
    mks = [] ∨ mks = [Step.mkdir wd] := by
  rcases workingDirOf_ok h with ⟨od, -, -, hwd, hmks⟩ | ⟨-, -, -, hmks⟩
  · subst hwd
    rw [hmks]
    split <;> simp
  · exact Or.inr hmks

theorem firstFail_append (ok : Step → Bool) (l₁ l₂ : List Step) :
    firstFail ok (l₁ ++ l₂) =
      if l₁.all ok then firstFail ok l₂ else firstFail ok l₁ := by
  induction l₁ with
  | nil => simp [firstFail]
  | cons s r ih =>
      by_cases h : ok s = true <;>
        simp [firstFail, h, ih, List.all_cons] <;> split <;> simp

theorem phase_eq_one_of_mem_copySteps {args : Args} {wd : String} {s : Step}
    (h : s ∈ copySteps args wd) : phase s = 1 := by
  rcases mem_copySteps.mp h with h | h | ⟨m, -, h⟩ | ⟨d, -, h⟩ <;>
    subst h <;> rfl

theorem phase_eq_three_of_mem_crsSteps {crsOf : String → String} {args : Args}
    {wd : String} {s : Step} (h : s ∈ crsSteps crsOf args wd) : phase s = 3 := by
  rcases mem_crsSteps.mp h with h | h | h | ⟨-, h⟩ | ⟨-, h⟩ <;>
    subst h <;> rfl

theorem pairwise_phase_of_const {l : List Step} {k : Nat}
    (h : ∀ s ∈ l, phase s = k) :
    l.Pairwise (fun a b => phase a ≤ phase b) := by
  induction l with
  | nil => exact List.Pairwise.nil
  | cons s r ih =>
      refine List.Pairwise.cons (fun b hb => ?_)
        (ih fun x hx => h x (List.mem_cons_of_mem _ hx))
      rw [h s (by simp), h b (List.mem_cons_of_mem _ hb)]

/-- C1: in a run in which every step succeeds, each staged candidate raster
(test DSM, test CLS, and MTL/DTM when supplied) is reprojected into the CRS
resolved from the reference DSM at `<ref_dir>/<ref_prefix>-DSM.tif`, and
only those rasters are ever passed to reprojection — a raster whose
optional input was not supplied never is. -/
theorem c1_reprojection_complete (gf : String → String → String)
    (crsOf : String → String) (dirs : String → Bool)
    (secStr fracStr : String) (args : Args) (r : MainResult) (ok : Step → Bool)
    (hrun : mainRun gf crsOf dirs secStr fracStr args = Except.ok r)
    (hok : ∀ s ∈ r.steps, ok s = true) :
    Step.convertCRS r.test_dsm (crsOf (refDsmPath args)) ∈ runTrace ok r.steps ∧
    Step.convertCRS r.test_cls (crsOf (refDsmPath args)) ∈ runTrace ok r.steps ∧
    (∀ m, args.mtl = some m →
      Step.convertCRS (stagedPath r.wd m) (crsOf (refDsmPath args)) ∈
        runTrace ok r.steps) ∧
    (∀ d, args.dtm = some d →
      Step.convertCRS (stagedPath r.wd d) (crsOf (refDsmPath args)) ∈
        runTrace ok r.steps) ∧
    (∀ p c, Step.convertCRS p c ∈ runTrace ok r.steps →
      c = crsOf (refDsmPath args) ∧
      (p = r.test_dsm ∨ p = r.test_cls ∨
        (∃ m, args.mtl = some m ∧ p = stagedPath r.wd m) ∨
        (∃ d, args.dtm = some d ∧ p = stagedPath r.wd d))) := by
  obtain ⟨mks, hw, hsteps, hdsm, hcls, hmtl, hdtm, hcfg⟩ := mainRun_ok hrun
  have hwd : r.wd ≠ "" := mainRun_wd_ne_empty hrun
  rw [runTrace_of_all hok, hsteps]
  have hmem : ∀ s : Step, s ∈ crsSteps crsOf args r.wd →
      s ∈ mks ++ restSteps gf crsOf args r.wd := fun s hs =>
    List.mem_append_right _ (mem_restSteps.mpr (Or.inr (Or.inr (Or.inl hs))))
  refine ⟨?_, ?_, ?_, ?_, ?_⟩
  · rw [hdsm]
    exact hmem _ (mem_crsSteps.mpr (Or.inr (Or.inl rfl)))
  · rw [hcls]
    exact hmem _ (mem_crsSteps.mpr (Or.inr (Or.inr (Or.inl rfl))))
  · intro m hm
    have hstm : stagedMtl args r.wd = stagedPath r.wd m := by
      simp [stagedMtl, hm]
    refine hmem _ (mem_crsSteps.mpr (Or.inr (Or.inr (Or.inr (Or.inl
      ⟨?_, ?_⟩)))))
    · rw [hstm]
      exact stagedPath_ne_empty _ hwd
    · rw [hstm]
  · intro d hd
    have hstd : stagedDtm args r.wd = stagedPath r.wd d := by
      simp [stagedDtm, hd]
    refine hmem _ (mem_crsSteps.mpr (Or.inr (Or.inr (Or.inr (Or.inr
      ⟨?_, ?_⟩)))))
    · rw [hstd]
      exact stagedPath_ne_empty _ hwd
    · rw [hstd]
  · intro p c hpc
    rcases List.mem_append.mp hpc with hl | hr
    · rcases mks_shape hw with h0 | h0 <;> rw [h0] at hl <;> simp at hl
    · rcases mem_restSteps.mp hr with hc | hc | hc | hc | hc
      · rcases mem_copySteps.mp hc with h | h | ⟨m, -, h⟩ | ⟨d, -, h⟩ <;>
          simp at h
      · simp at hc
      · rcases mem_crsSteps.mp hc with h | h | h | ⟨hne, h⟩ | ⟨hne, h⟩
        · simp at h
        · injection h with h1 h2
          exact ⟨h2, Or.inl (by rw [hdsm, h1])⟩
        · injection h with h1 h2
          exact ⟨h2, Or.inr (Or.inl (by rw [hcls, h1]))⟩
        · injection h with h1 h2
          cases hm2 : args.mtl with
          | none => simp [stagedMtl, hm2] at hne
          | some m =>
              exact ⟨h2, Or.inr (Or.inr (Or.inl ⟨m, rfl,
                by rw [h1]; simp [stagedMtl, hm2]⟩))⟩
        · injection h with h1 h2
          cases hd2 : args.dtm with
          | none => simp [stagedDtm, hd2] at hne
          | some d =>
              exact ⟨h2, Or.inr (Or.inr (Or.inr ⟨d, rfl,
                by rw [h1]; simp [stagedDtm, hd2]⟩))⟩
      · simp at hc
      · simp at hc

/-- Witness for C1 at the fixture input. -/
theorem c1_witness :
    Step.convertCRS resW.test_dsm (crsW (refDsmPath argsW)) ∈
      runTrace (fun _ => true) resW.steps :=
  (c1_reprojection_complete gfW crsW dirsW "17" "5" argsW resW (fun _ => true)
    (by rfl) (by decide)).1

/-- The planned trace of a successful run is monotone in pipeline phase. -/
theorem mainRun_phase_pairwise {gf : String → String → String}
    {crsOf : String → String} {dirs : String → Bool}
    {secStr fracStr : String} {args : Args} {r : MainResult}
    (hrun : mainRun gf crsOf dirs secStr fracStr args = Except.ok r) :
    r.steps.Pairwise (fun a b => phase a ≤ phase b) := by
  obtain ⟨mks, hw, hsteps, -, -, -, -, -⟩ := mainRun_ok hrun
  rw [hsteps]
  have hmks : ∀ s ∈ mks, phase s = 0 := by
    rcases mks_shape hw with h0 | h0 <;> subst h0
    · intro s hs
      simp at hs
    · intro s hs
      simp at hs
      subst hs
      rfl
  unfold restSteps
  apply List.pairwise_append.mpr
  refine ⟨pairwise_phase_of_const hmks, ?_, ?_⟩
  · apply List.pairwise_append.mpr
    refine ⟨?_, ?_, ?_⟩
    · apply List.pairwise_append.mpr
      refine ⟨?_, ?_, ?_⟩
      · apply List.pairwise_append.mpr
        refine ⟨pairwise_phase_of_const
            (fun s hs => phase_eq_one_of_mem_copySteps hs), by simp, ?_⟩
        intro a ha b hb
        simp at hb
        subst hb
        rw [phase_eq_one_of_mem_copySteps ha]
        simp [phase]
      · exact pairwise_phase_of_const
          (fun s hs => phase_eq_three_of_mem_crsSteps hs)
      · intro a ha b hb
        have hb3 := phase_eq_three_of_mem_crsSteps hb
        rcases List.mem_append.mp ha with h | h
        · rw [phase_eq_one_of_mem_copySteps h, hb3]
          omega
        · simp at h
          subst h
          rw [hb3]
          simp [phase]
    · simp [List.pairwise_cons, phase]
    · intro a ha b hb
      have ha3 : phase a ≤ 3 := by
        rcases List.mem_append.mp ha with h | h
        · rcases List.mem_append.mp h with h' | h'
          · rw [phase_eq_one_of_mem_copySteps h']
            omega
          · simp at h'
            subst h'
            simp [phase]
        · rw [phase_eq_three_of_mem_crsSteps h]
      have hb4 : 4 ≤ phase b := by
        rcases (by simpa using hb : b = _ ∨ b = _) with h | h <;>
          subst h <;> simp [phase]
      omega
  · intro a ha b hb
    rw [hmks a ha]
    omega

/-- C2: every successful preparation plans its effects in the fixed stage
order — directory setup, staging copies, config writing, coordinate
normalization, DSM pixel-type coercion, engine dispatch — so no
later-stage effect ever precedes an earlier-stage one in the trace. -/
theorem c2_pipeline_order (gf : String → String → String)
    (crsOf : String → String) (dirs : String → Bool)
    (secStr fracStr : String) (args : Args) (r : MainResult)
    (hrun : mainRun gf crsOf dirs secStr fracStr args = Except.ok r) :
    r.steps.Pairwise (fun a b => phase a ≤ phase b) :=
  mainRun_phase_pairwise hrun

/-- Witness for C2 at the fixture input. -/
theorem c2_witness : resW.steps.Pairwise (fun a b => phase a ≤ phase b) :=
  c2_pipeline_order gfW crsW dirsW "17" "5" argsW resW (by rfl)

theorem phase_of_isConvertFloat32 {a : Step} (h : isConvertFloat32 a = true) :
    phase a = 4 := by
  cases a <;> simp [isConvertFloat32] at h <;> rfl

theorem phase_of_isConvertCRS {a : Step} (h : isConvertCRS a = true) :
    phase a = 3 := by
  cases a <;> simp [isConvertCRS] at h <;> rfl

/-- C4: pixel-type normalization is applied to the staged test DSM and to no
other path — in particular the staged CLS/MTL/DTM are never passed to it —
and never before a reprojection effect: no reprojection follows the
Float32 coercion in the trace. -/
theorem c4_float32_only_dsm (gf : String → String → String)
    (crsOf : String → String) (dirs : String → Bool)
    (secStr fracStr : String) (args : Args) (r : MainResult)
    (hrun : mainRun gf crsOf dirs secStr fracStr args = Except.ok r) :
    (∀ p, Step.convertFloat32 p ∈ r.steps ↔ p = r.test_dsm) ∧
    r.steps.Pairwise
      (fun a b => isConvertFloat32 a = true → isConvertCRS b = true → False) := by
  obtain ⟨mks, hw, hsteps, hdsm, -, -, -, -⟩ := mainRun_ok hrun
  constructor
  · intro p
    rw [hsteps, hdsm]
    constructor
    · intro hp
      rcases List.mem_append.mp hp with hl | hr
      · rcases mks_shape hw with h0 | h0 <;> subst h0 <;> simp at hl
      · rcases mem_restSteps.mp hr with hc | hc | hc | hc | hc
        · rcases mem_copySteps.mp hc with h | h | ⟨m, -, h⟩ | ⟨d, -, h⟩ <;>
            simp at h
        · simp at hc
        · rcases mem_crsSteps.mp hc with h | h | h | ⟨-, h⟩ | ⟨-, h⟩ <;>
            simp at h
        · injection hc with h1
        · simp at hc
    · intro hp
      subst hp
      exact List.mem_append_right _ (mem_restSteps.mpr
        (Or.inr (Or.inr (Or.inr (Or.inl rfl)))))
  · refine (mainRun_phase_pairwise hrun).imp ?_
    intro a b hab hf hc
    rw [phase_of_isConvertFloat32 hf, phase_of_isConvertCRS hc] at hab
    omega

/-- Witness for C4 at the fixture input. -/
theorem c4_witness :
    (∀ p, Step.convertFloat32 p ∈ resW.steps ↔ p = resW.test_dsm) ∧
    resW.steps.Pairwise
      (fun a b => isConvertFloat32 a = true → isConvertCRS b = true → False) :=
  c4_float32_only_dsm gfW crsW dirsW "17" "5" argsW resW (by rfl)

theorem filter_isCopy_copySteps (args : Args) (wd : String) :
    (copySteps args wd).filter isCopy = copySteps args wd := by
  apply List.filter_eq_self.mpr
  intro s hs
  rcases mem_copySteps.mp hs with h | h | ⟨m, -, h⟩ | ⟨d, -, h⟩ <;>
    subst h <;> rfl

theorem filter_isCopy_crsSteps (crsOf : String → String) (args : Args)
    (wd : String) : (crsSteps crsOf args wd).filter isCopy = [] := by
  apply List.filter_eq_nil_iff.mpr
  intro s hs
  rcases mem_crsSteps.mp hs with h | h | h | ⟨-, h⟩ | ⟨-, h⟩ <;>
    subst h <;> simp [isCopy]

theorem filter_isConvertCRS_copySteps (args : Args) (wd : String) :
    (copySteps args wd).filter isConvertCRS = [] := by
  apply List.filter_eq_nil_iff.mpr
  intro s hs
  rcases mem_copySteps.mp hs with h | h | ⟨m, -, h⟩ | ⟨d, -, h⟩ <;>
    subst h <;> simp [isConvertCRS]

/-- C5: each supplied candidate file is staged by a copy into the working
directory under its original base name, with MTL/DTM copied only when
supplied; an unsupplied optional's staged path is recorded as the empty
string, and in that case no copy and no reprojection of any further file
is attempted. -/
theorem c5_staging (gf : String → String → String)
    (crsOf : String → String) (dirs : String → Bool)
    (secStr fracStr : String) (args : Args) (r : MainResult)
    (hrun : mainRun gf crsOf dirs secStr fracStr args = Except.ok r) :
    r.steps.filter isCopy =
      [Step.copy args.dsm (osPathJoin r.wd (basename args.dsm)),
       Step.copy args.cls (osPathJoin r.wd (basename args.cls))] ++
      (match args.mtl with
       | some m => [Step.copy m (osPathJoin r.wd (basename m))]
       | none => []) ++
      (match args.dtm with
       | some d => [Step.copy d (osPathJoin r.wd (basename d))]
       | none => []) ∧
    (args.mtl = none → r.test_mtl = "") ∧
    (args.dtm = none → r.test_dtm = "") ∧
    (args.mtl = none → args.dtm = none →
      r.steps.filter isConvertCRS =
        [Step.convertCRS r.test_dsm (crsOf (refDsmPath args)),
         Step.convertCRS r.test_cls (crsOf (refDsmPath args))]) := by
  obtain ⟨mks, hw, hsteps, hdsm, hcls, hmtl, hdtm, -⟩ := mainRun_ok hrun
  have hmkscopy : mks.filter isCopy = [] := by
    rcases mks_shape hw with h0 | h0 <;> subst h0 <;> simp [isCopy]
  have hmkscrs : mks.filter isConvertCRS = [] := by
    rcases mks_shape hw with h0 | h0 <;> subst h0 <;> simp [isConvertCRS]
  refine ⟨?_, ?_, ?_, ?_⟩
  · rw [hsteps]
    rw [List.filter_append, hmkscopy]
    unfold restSteps
    rw [List.filter_append, List.filter_append, List.filter_append,
      filter_isCopy_copySteps, filter_isCopy_crsSteps]
    simp only [List.filter, isCopy, List.append_nil, List.nil_append]
    cases hm : args.mtl <;> cases hd : args.dtm <;>
      simp [copySteps, hm, hd, stagedPath]
  · intro hm
    rw [hmtl]
    simp [stagedMtl, hm]
  · intro hd
    rw [hdtm]
    simp [stagedDtm, hd]
  · intro hm hd
    rw [hsteps, List.filter_append, hmkscrs]
    unfold restSteps
    rw [List.filter_append, List.filter_append, List.filter_append,
      filter_isConvertCRS_copySteps]
    have hstm : stagedMtl args r.wd = "" := by simp [stagedMtl, hm]
    have hstd : stagedDtm args r.wd = "" := by simp [stagedDtm, hd]
    simp only [List.filter, isConvertCRS, List.append_nil, List.nil_append]
    rw [hdsm, hcls]
    simp [crsSteps, hstm, hstd, isConvertCRS]

/-- Witness for C5 at the fixture input. -/
theorem c5_witness :
    resW.steps.filter isCopy =
      [Step.copy argsW.dsm (osPathJoin resW.wd (basename argsW.dsm)),
       Step.copy argsW.cls (osPathJoin resW.wd (basename argsW.cls))] ++
      (match argsW.mtl with
       | some m => [Step.copy m (osPathJoin resW.wd (basename m))]
       | none => []) ++
      (match argsW.dtm with
       | some d => [Step.copy d (osPathJoin resW.wd (basename d))]
       | none => []) :=
  (c5_staging gfW crsW dirsW "17" "5" argsW resW (by rfl)).1

/-- C7: the external engine is dispatched exactly once, as the last effect,
with the four named arguments `--config` (the config file written in the
config-rendering step), `--reference` (the caller's reference directory),
`--test` and `--output` (both the working directory). -/
theorem c7_engine_invocation (gf : String → String → String)
    (crsOf : String → String) (dirs : String → Bool)
    (secStr fracStr : String) (args : Args) (r : MainResult)
    (hrun : mainRun gf crsOf dirs secStr fracStr args = Except.ok r) :
    r.steps.filter isEngine =
      [Step.invokeEngine r.cfg args.ref_dir r.wd r.wd] ∧
    r.steps.getLast? = some (Step.invokeEngine r.cfg args.ref_dir r.wd r.wd) ∧
    (∀ p, Step.writeConfig p ∈ r.steps ↔ p = r.cfg) := by
  obtain ⟨mks, hw, hsteps, -, -, -, -, hcfg⟩ := mainRun_ok hrun
  have hmkseng : mks.filter isEngine = [] := by
    rcases mks_shape hw with h0 | h0 <;> subst h0 <;> simp [isEngine]
  have hcopyeng : (copySteps args r.wd).filter isEngine = [] := by
    apply List.filter_eq_nil_iff.mpr
    intro s hs
    rcases mem_copySteps.mp hs with h | h | ⟨m, -, h⟩ | ⟨d, -, h⟩ <;>
      subst h <;> simp [isEngine]
  have hcrseng : (crsSteps crsOf args r.wd).filter isEngine = [] := by
    apply List.filter_eq_nil_iff.mpr
    intro s hs
    rcases mem_crsSteps.mp hs with h | h | h | ⟨-, h⟩ | ⟨-, h⟩ <;>
      subst h <;> simp [isEngine]
  refine ⟨?_, ?_, ?_⟩
  · rw [hsteps, List.filter_append, hmkseng]
    unfold restSteps
    rw [List.filter_append, List.filter_append, List.filter_append,
      hcopyeng, hcrseng]
    rw [hcfg]
    simp [isEngine]
  · have hconcat : r.steps =
        (mks ++ (copySteps args r.wd ++ [Step.writeConfig (cfgPath gf args r.wd)] ++
          crsSteps crsOf args r.wd ++ [Step.convertFloat32 (stagedPath r.wd args.dsm)])) ++
        [Step.invokeEngine (cfgPath gf args r.wd) args.ref_dir r.wd r.wd] := by
      rw [hsteps]
      simp [restSteps]
    rw [hconcat, List.getLast?_concat, hcfg]
  · intro p
    rw [hsteps, hcfg]
    constructor
    · intro hp
      rcases List.mem_append.mp hp with hl | hr
      · rcases mks_shape hw with h0 | h0 <;> subst h0 <;> simp at hl
      · rcases mem_restSteps.mp hr with hc | hc | hc | hc | hc
        · rcases mem_copySteps.mp hc with h | h | ⟨m, -, h⟩ | ⟨d, -, h⟩ <;>
            simp at h
        · injection hc with h1
        · rcases mem_crsSteps.mp hc with h | h | h | ⟨-, h⟩ | ⟨-, h⟩ <;>
            simp at h
        · simp at hc
        · simp at hc
    · intro hp
      subst hp
      exact List.mem_append_right _ (mem_restSteps.mpr (Or.inr (Or.inl rfl)))

/-- Witness for C7 at the fixture input. -/
theorem c7_witness :
    resW.steps.filter isEngine =
      [Step.invokeEngine resW.cfg argsW.ref_dir resW.wd resW.wd] ∧
    resW.steps.getLast? =
      some (Step.invokeEngine resW.cfg argsW.ref_dir resW.wd resW.wd) ∧
    (∀ p, Step.writeConfig p ∈ resW.steps ↔ p = resW.cfg) :=
  c7_engine_invocation gfW crsW dirsW "17" "5" argsW resW (by rfl)

/-- C3 counterexample: with a test DSM that copies fine but is unreadable as
a raster (modelled by the oracle `okB`, which fails exactly the
reprojection of the staged DSM), the run writes the config document and
only afterwards fails at the coordinate-conversion step — it does not fail
before any config document has been written, refuting the claim at this
input. -/
theorem c3_counterexample :
    runTrace okB (runSteps (mainRun gfW crsW dirsW "17" "5" argsB)) =
      [Step.copy "in/d.tif" "out/d.tif",
       Step.copy "in/c.tif" "out/c.tif",
       Step.writeConfig "out/m.config",
       Step.getCRS "refs/AOI-DSM.tif",
       Step.convertCRS "out/d.tif" "P4"] ∧
    Step.writeConfig "out/m.config" ∈
      runTrace okB (runSteps (mainRun gfW crsW dirsW "17" "5" argsB)) ∧
    firstFail okB (runSteps (mainRun gfW crsW dirsW "17" "5" argsB)) =
      some (Step.convertCRS "out/d.tif" "P4") := by
  decide

/-- C3 (amended): when the test DSM cannot even be copied, the run fails
before any config document is written; but when the DSM copies
successfully and is merely corrupt/unreadable as a raster, the failure
occurs at the coordinate-conversion step, after the config document has
already been written. -/
theorem c3_failure_order (gf : String → String → String)
    (crsOf : String → String) (dirs : String → Bool)
    (secStr fracStr : String) (args : Args) (r : MainResult)
    (hrun : mainRun gf crsOf dirs secStr fracStr args = Except.ok r) :
    (∀ ok : Step → Bool, ok (Step.copy args.dsm r.test_dsm) = false →
      ∀ p, Step.writeConfig p ∉ runTrace ok r.steps) ∧
    (∀ ok : Step → Bool,
      (∀ s ∈ r.steps,
        s ≠ Step.convertCRS r.test_dsm (crsOf (refDsmPath args)) →
        ok s = true) →
      ok (Step.convertCRS r.test_dsm (crsOf (refDsmPath args))) = false →
      Step.writeConfig r.cfg ∈ runTrace ok r.steps ∧
      firstFail ok r.steps =
        some (Step.convertCRS r.test_dsm (crsOf (refDsmPath args)))) := by
  obtain ⟨mks, hw, hsteps, hdsm, hcls, -, -, hcfg⟩ := mainRun_ok hrun
  have hnowc : ∀ (p : String) (s : Step), s ∈ mks → s ≠ Step.writeConfig p := by
    rcases mks_shape hw with h0 | h0 <;> subst h0 <;> intro p s hs
    · simp at hs
    · simp at hs
      subst hs
      simp
  constructor
  · intro ok hfail p hwcmem
    rw [hdsm] at hfail
    have hB : r.steps =
        mks ++ Step.copy args.dsm (stagedPath r.wd args.dsm) ::
          (Step.copy args.cls (stagedPath r.wd args.cls) ::
            ((match args.mtl with
              | some m => [Step.copy m (stagedPath r.wd m)]
              | none => []) ++
             ((match args.dtm with
               | some m => [Step.copy m (stagedPath r.wd m)]
               | none => []) ++
              Step.writeConfig (cfgPath gf args r.wd) ::
                (crsSteps crsOf args r.wd ++
                  [Step.convertFloat32 (stagedPath r.wd args.dsm),
                   Step.invokeEngine (cfgPath gf args r.wd)
                     args.ref_dir r.wd r.wd])))) := by
      rw [hsteps]
      simp [restSteps, copySteps]
    rw [hB, runTrace_append] at hwcmem
    by_cases hall : mks.all ok
    · rw [if_pos hall] at hwcmem
      rcases List.mem_append.mp hwcmem with h | h
      · exact hnowc p _ h rfl
      · simp [runTrace, hfail] at h
    · rw [if_neg hall] at hwcmem
      exact hnowc p _ (mem_of_mem_runTrace hwcmem) rfl
  · intro ok hok hfail
    rw [hdsm] at hfail
    set crs := crsOf (refDsmPath args) with hcrs
    have hQ : r.steps =
        (mks ++ copySteps args r.wd ++
          [Step.writeConfig (cfgPath gf args r.wd),
           Step.getCRS (refDsmPath args)]) ++
        Step.convertCRS (stagedPath r.wd args.dsm) crs ::
          (Step.convertCRS (stagedPath r.wd args.cls) crs ::
            ((if stagedMtl args r.wd ≠ "" then
                [Step.convertCRS (stagedMtl args r.wd) crs] else []) ++
             ((if stagedDtm args r.wd ≠ "" then
                 [Step.convertCRS (stagedDtm args r.wd) crs] else []) ++
              [Step.convertFloat32 (stagedPath r.wd args.dsm),
               Step.invokeEngine (cfgPath gf args r.wd)
                 args.ref_dir r.wd r.wd]))) := by
      rw [hsteps]
      simp [restSteps, crsSteps]
    have hPmem : ∀ s ∈ mks ++ copySteps args r.wd ++
        [Step.writeConfig (cfgPath gf args r.wd),
         Step.getCRS (refDsmPath args)], s ∈ r.steps := by
      intro s hs
      rw [hQ]
      exact List.mem_append_left _ hs
    have hPne : ∀ s ∈ mks ++ copySteps args r.wd ++
        [Step.writeConfig (cfgPath gf args r.wd),
         Step.getCRS (refDsmPath args)],
        s ≠ Step.convertCRS (stagedPath r.wd args.dsm) crs := by
      intro s hs
      rcases List.mem_append.mp hs with h | h
      · rcases List.mem_append.mp h with h' | h'
        · rcases mks_shape hw with h0 | h0 <;> subst h0
          · simp at h'
          · simp at h'
            subst h'
            simp
        · rcases mem_copySteps.mp h' with h2 | h2 | ⟨m, -, h2⟩ | ⟨d, -, h2⟩ <;>
            subst h2 <;> simp
      · simp at h
        rcases h with h2 | h2 <;> subst h2 <;> simp
    have hPall : (mks ++ copySteps args r.wd ++
        [Step.writeConfig (cfgPath gf args r.wd),
         Step.getCRS (refDsmPath args)]).all ok = true :=
      List.all_eq_true.mpr fun s hs =>
        hok s (hPmem s hs) (hdsm ▸ hPne s hs)
    constructor
    · rw [hQ, runTrace_append, if_pos hPall]
      apply List.mem_append_left
      rw [hcfg]
      apply List.mem_append_right
      simp
    · rw [hQ, firstFail_append, if_pos hPall, hdsm]
      simp [firstFail, hfail]

/-- Witness for the amended C3 at the fixture input: the staged DSM copy
succeeds, its reprojection fails, and the config write is in the executed
trace before the failing step. -/
theorem c3_witness :
    Step.writeConfig resB.cfg ∈ runTrace okB resB.steps ∧
    firstFail okB resB.steps =
      some (Step.convertCRS resB.test_dsm (crsW (refDsmPath argsB))) :=
  (c3_failure_order gfW crsW dirsW "17" "5" argsB resB (by rfl)).2 okB
    (by decide) (by decide)

theorem mkdir_not_mem_restSteps {gf : String → String → String}
    {crsOf : String → String} {args : Args} {wd q : String} :
    Step.mkdir q ∉ restSteps gf crsOf args wd := by
  intro h
  rcases mem_restSteps.mp h with hc | hc | hc | hc | hc
  · rcases mem_copySteps.mp hc with h' | h' | ⟨m, -, h'⟩ | ⟨d, -, h'⟩ <;>
      simp at h'
  · simp at hc
  · rcases mem_crsSteps.mp hc with h' | h' | h' | ⟨-, h'⟩ | ⟨-, h'⟩ <;>
      simp at h'
  · simp at hc
  · simp at hc

/-- C6 (amended): an explicit, nonempty output directory always yields a
successful preparation that uses it as the working directory — creating it
only when it does not yet exist and reusing it without any directory
creation when it does — and any path the pipeline does not itself write
(in particular every pre-existing unrelated file) keeps its exact content
across the run, even a partially failing one; without an explicit output
directory (or with an empty one) a fresh timestamp-named directory is
created first, provided no directory of that name already exists (the name
is not guaranteed unique — see the collision behavior). -/
theorem c6_working_dir (gf : String → String → String)
    (crsOf : String → String) (dirs : String → Bool)
    (secStr fracStr : String) (args : Args) :
    (∀ od, args.output_dir = some od → od ≠ "" →
      ∃ r, mainRun gf crsOf dirs secStr fracStr args = Except.ok r ∧
        r.wd = od ∧
        (dirs od = true → ∀ q, Step.mkdir q ∉ r.steps) ∧
        (dirs od = false → r.steps.head? = some (Step.mkdir od)) ∧
        (∀ (ok : Step → Bool) (reproj : Nat → String → Nat)
            (toF32 : Nat → Nat) (cfgC : Nat) (fs : FS) (p : String),
          p ∉ writtenPaths r.steps →
          applySteps reproj toF32 cfgC fs (runTrace ok r.steps) p = fs p)) ∧
    ((args.output_dir = none ∨ args.output_dir = some "") →
      dirs ("metrics-" ++ strBeforeDot (secStr ++ "." ++ fracStr)) = false →
      ∃ r, mainRun gf crsOf dirs secStr fracStr args = Except.ok r ∧
        r.wd = "metrics-" ++ strBeforeDot (secStr ++ "." ++ fracStr) ∧
        r.steps.head? = some (Step.mkdir r.wd)) := by
  constructor
  · intro od hod hne
    have hw : workingDirOf dirs secStr fracStr args =
        Except.ok (od, if dirs od then [] else [Step.mkdir od]) := by
      simp [workingDirOf, hod, hne]
    have hrun : mainRun gf crsOf dirs secStr fracStr args = Except.ok
        { wd := od, test_dsm := stagedPath od args.dsm,
          test_cls := stagedPath od args.cls, test_mtl := stagedMtl args od,
          test_dtm := stagedDtm args od, cfg := cfgPath gf args od,
          steps := (if dirs od then [] else [Step.mkdir od]) ++
            restSteps gf crsOf args od } := by
      unfold mainRun
      rw [hw]
      rfl
    refine ⟨_, hrun, rfl, ?_, ?_, ?_⟩
    · intro htrue q hmem
      simp only [htrue, if_true] at hmem
      rw [List.nil_append] at hmem
      exact mkdir_not_mem_restSteps hmem
    · intro hfalse
      simp [hfalse]
    · intro ok reproj toF32 cfgC fs p hp
      exact applySteps_frame _ _ _ _ _
        (fun hc => hp (writtenPaths_subset_of_runTrace ok _ hc))
  · intro hopt hfree
    have hcw : create_working_dir secStr fracStr dirs =
        Except.ok ("metrics-" ++ strBeforeDot (secStr ++ "." ++ fracStr)) := by
      simp [create_working_dir, hfree]
    have hw : workingDirOf dirs secStr fracStr args =
        Except.ok ("metrics-" ++ strBeforeDot (secStr ++ "." ++ fracStr),
          [Step.mkdir ("metrics-" ++ strBeforeDot (secStr ++ "." ++ fracStr))]) := by
      rcases hopt with h | h <;> simp [workingDirOf, h, hcw, Except.map]
    have hrun : mainRun gf crsOf dirs secStr fracStr args = Except.ok
        { wd := "metrics-" ++ strBeforeDot (secStr ++ "." ++ fracStr),
          test_dsm := stagedPath
            ("metrics-" ++ strBeforeDot (secStr ++ "." ++ fracStr)) args.dsm,
          test_cls := stagedPath
            ("metrics-" ++ strBeforeDot (secStr ++ "." ++ fracStr)) args.cls,
          test_mtl := stagedMtl args
            ("metrics-" ++ strBeforeDot (secStr ++ "." ++ fracStr)),
          test_dtm := stagedDtm args
            ("metrics-" ++ strBeforeDot (secStr ++ "." ++ fracStr)),
          cfg := cfgPath gf args
            ("metrics-" ++ strBeforeDot (secStr ++ "." ++ fracStr)),
          steps := [Step.mkdir
              ("metrics-" ++ strBeforeDot (secStr ++ "." ++ fracStr))] ++
            restSteps gf crsOf args
              ("metrics-" ++ strBeforeDot (secStr ++ "." ++ fracStr)) } := by
      unfold mainRun
      rw [hw]
      rfl
    refine ⟨_, hrun, rfl, by simp⟩

/-- Witness for C6 at the fixture input (explicit existing directory). -/
theorem c6_witness :
    ∃ r, mainRun gfW crsW dirsW "17" "5" argsW = Except.ok r ∧
      r.wd = "out" ∧
      (dirsW "out" = true → ∀ q, Step.mkdir q ∉ r.steps) ∧
      (dirsW "out" = false → r.steps.head? = some (Step.mkdir "out")) ∧
      (∀ (ok : Step → Bool) (reproj : Nat → String → Nat)
          (toF32 : Nat → Nat) (cfgC : Nat) (fs : FS) (p : String),
        p ∉ writtenPaths r.steps →
        applySteps reproj toF32 cfgC fs (runTrace ok r.steps) p = fs p) :=
  (c6_working_dir gfW crsW dirsW "17" "5" argsW).1 "out" rfl (by decide)

/-- C6 counterexample: with no explicit output directory and a directory
named `metrics-17` already existing, the run creates no fresh working
directory at all — it fails with `FileExistsError` — so the
timestamp-derived name is not unique and the claimed unconditional
creation fails at this input. -/
theorem c6_counterexample :
    mainRun gfW crsW (fun p => p = "metrics-" ++ "17") "17" "5" argsT =
      Except.error PyError.fileExistsError := by
  rfl

/-- Every path written by a successful run's planned trace lies inside the
working directory. -/
theorem writtenPaths_mainRun {gf : String → String → String}
    {crsOf : String → String} {dirs : String → Bool}
    {secStr fracStr : String} {args : Args} {r : MainResult}
    (hrun : mainRun gf crsOf dirs secStr fracStr args = Except.ok r) :
    ∀ t ∈ writtenPaths r.steps, ∃ b, t = osPathJoin r.wd b := by
  obtain ⟨mks, hw, hsteps, -, -, -, -, -⟩ := mainRun_ok hrun
  intro t ht
  rw [hsteps, writtenPaths_append] at ht
  rcases List.mem_append.mp ht with hl | hr
  · rcases mks_shape hw with h0 | h0 <;> subst h0 <;>
      simp [writtenPaths, stepWrites] at hl
  · simp only [writtenPaths, List.mem_flatMap] at hr
    obtain ⟨s, hs, hts⟩ := hr
    rcases mem_restSteps.mp hs with hc | hc | hc | hc | hc
    · rcases mem_copySteps.mp hc with h | h | ⟨m, -, h⟩ | ⟨d, -, h⟩ <;>
        subst h <;> simp [stepWrites] at hts <;> subst hts
      · exact ⟨basename args.dsm, rfl⟩
      · exact ⟨basename args.cls, rfl⟩
      · exact ⟨basename m, rfl⟩
      · exact ⟨basename d, rfl⟩
    · subst hc
      simp [stepWrites] at hts
      subst hts
      exact ⟨gf (stagedPath r.wd args.dsm) (stagedPath r.wd args.cls), rfl⟩
    · rcases mem_crsSteps.mp hc with h | h | h | ⟨hne, h⟩ | ⟨hne, h⟩ <;>
        subst h <;> simp [stepWrites] at hts
      · subst hts
        exact ⟨basename args.dsm, rfl⟩
      · subst hts
        exact ⟨basename args.cls, rfl⟩
      · subst hts
        cases hm : args.mtl with
        | none => simp [stagedMtl, hm] at hne
        | some m => exact ⟨basename m, by simp [stagedMtl, hm, stagedPath]⟩
      · subst hts
        cases hd : args.dtm with
        | none => simp [stagedDtm, hd] at hne
        | some d => exact ⟨basename d, by simp [stagedDtm, hd, stagedPath]⟩
    · subst hc
      simp [stepWrites] at hts
      subst hts
      exact ⟨basename args.dsm, rfl⟩
    · subst hc
      simp [stepWrites] at hts

/-- Every staging copy of a successful run reads one of the caller's
supplied input files. -/
theorem copy_src_mainRun {gf : String → String → String}
    {crsOf : String → String} {dirs : String → Bool}
    {secStr fracStr : String} {args : Args} {r : MainResult}
    (hrun : mainRun gf crsOf dirs secStr fracStr args = Except.ok r) :
    ∀ src dst, Step.copy src dst ∈ r.steps →
      src = args.dsm ∨ src = args.cls ∨
      args.mtl = some src ∨ args.dtm = some src := by
  obtain ⟨mks, hw, hsteps, -, -, -, -, -⟩ := mainRun_ok hrun
  intro src dst h
  rw [hsteps] at h
  rcases List.mem_append.mp h with hl | hr
  · rcases mks_shape hw with h0 | h0 <;> subst h0 <;> simp at hl
  · rcases mem_restSteps.mp hr with hc | hc | hc | hc | hc
    · rcases mem_copySteps.mp hc with h' | h' | ⟨m, hm, h'⟩ | ⟨d, hd, h'⟩
      · injection h' with h1 h2
        exact Or.inl h1
      · injection h' with h1 h2
        exact Or.inr (Or.inl h1)
      · injection h' with h1 h2
        exact Or.inr (Or.inr (Or.inl (h1 ▸ hm)))
      · injection h' with h1 h2
        exact Or.inr (Or.inr (Or.inr (h1 ▸ hd)))
    · simp at hc
    · rcases mem_crsSteps.mp hc with h' | h' | h' | ⟨-, h'⟩ | ⟨-, h'⟩ <;>
        simp at h'
    · simp at hc
    · simp at hc

/-- C8: all mutation — staging copies, config writing, reprojection and
pixel-type coercion — targets only paths of the form `working_dir/…`; any
path the trace does not write, in particular the caller's original
DSM/CLS/MTL/DTM files and the reference rasters (which by the pipeline's
contract are not staged targets), keeps its exact content across any run,
even one cut short by a failure; and no existing file is ever deleted. -/
theorem c8_mutation_confined (gf : String → String → String)
    (crsOf : String → String) (dirs : String → Bool)
    (secStr fracStr : String) (args : Args) (r : MainResult)
    (ok : Step → Bool) (reproj : Nat → String → Nat) (toF32 : Nat → Nat)
    (cfgC : Nat) (fs : FS)
    (hrun : mainRun gf crsOf dirs secStr fracStr args = Except.ok r)
    (hdsm : args.dsm ∉ writtenPaths r.steps)
    (hcls : args.cls ∉ writtenPaths r.steps)
    (hmtl : ∀ m, args.mtl = some m → m ∉ writtenPaths r.steps)
    (hdtm : ∀ d, args.dtm = some d → d ∉ writtenPaths r.steps)
    (hedsm : fs args.dsm ≠ none) (hecls : fs args.cls ≠ none)
    (hemtl : ∀ m, args.mtl = some m → fs m ≠ none)
    (hedtm : ∀ d, args.dtm = some d → fs d ≠ none) :
    (∀ t ∈ writtenPaths (runTrace ok r.steps), ∃ b, t = osPathJoin r.wd b) ∧
    (∀ p, p ∉ writtenPaths r.steps →
      applySteps reproj toF32 cfgC fs (runTrace ok r.steps) p = fs p) ∧
    (∀ p, fs p ≠ none →
      applySteps reproj toF32 cfgC fs (runTrace ok r.steps) p ≠ none) := by
  refine ⟨?_, ?_, ?_⟩
  · intro t ht
    exact writtenPaths_mainRun hrun t (writtenPaths_subset_of_runTrace ok _ ht)
  · intro p hp
    exact applySteps_frame _ _ _ _ _
      (fun hc => hp (writtenPaths_subset_of_runTrace ok _ hc))
  · intro p hp
    refine applySteps_preserves_exists _ _ _ _ _ ?_ p hp
    intro src dst hmem
    have hmem' := mem_of_mem_runTrace hmem
    have hnw : src ∉ writtenPaths (runTrace ok r.steps) := by
      rcases copy_src_mainRun hrun src dst hmem' with h | h | h | h
      · exact fun hc => hdsm (h ▸ writtenPaths_subset_of_runTrace ok _ hc)
      · exact fun hc => hcls (h ▸ writtenPaths_subset_of_runTrace ok _ hc)
      · exact fun hc => hmtl src h (writtenPaths_subset_of_runTrace ok _ hc)
      · exact fun hc => hdtm src h (writtenPaths_subset_of_runTrace ok _ hc)
    refine ⟨?_, hnw⟩
    rcases copy_src_mainRun hrun src dst hmem' with h | h | h | h
    · exact h ▸ hedsm
    · exact h ▸ hecls
    · exact hemtl src h
    · exact hedtm src h

/-- Witness for C8 at the fixture input, with a filesystem containing the
three original inputs. -/
theorem c8_witness :
    (∀ t ∈ writtenPaths (runTrace okB resW.steps),
      ∃ b, t = osPathJoin resW.wd b) ∧
    (∀ p, p ∉ writtenPaths resW.steps →
      applySteps (fun v _ => v + 1) (fun v => v + 2) 7
        (fun q => if q = "refs/AOI-DSM.tif" ∨ q = "in/d.tif" ∨
          q = "in/c.tif" ∨ q = "in/m.tif" ∨ q = "in/t.tif" then some 1 else none)
        (runTrace okB resW.steps) p =
      (fun q => if q = "refs/AOI-DSM.tif" ∨ q = "in/d.tif" ∨
          q = "in/c.tif" ∨ q = "in/m.tif" ∨ q = "in/t.tif" then some 1 else none) p) ∧
    (∀ p, (fun q => if q = "refs/AOI-DSM.tif" ∨ q = "in/d.tif" ∨
          q = "in/c.tif" ∨ q = "in/m.tif" ∨ q = "in/t.tif" then some 1 else none) p ≠ none →
      applySteps (fun v _ => v + 1) (fun v => v + 2) 7
        (fun q => if q = "refs/AOI-DSM.tif" ∨ q = "in/d.tif" ∨
          q = "in/c.tif" ∨ q = "in/m.tif" ∨ q = "in/t.tif" then some 1 else none)
        (runTrace okB resW.steps) p ≠ none) :=
  c8_mutation_confined gfW crsW dirsW "17" "5" argsW resW okB
    (fun v _ => v + 1) (fun v => v + 2) 7 _ (by rfl)
    (by decide) (by decide)
    (by intro m hm; injection hm with h; subst h; decide)
    (by intro d hd; injection hd with h; subst h; decide)
    (by decide) (by decide)
    (by intro m hm; injection hm with h; subst h; decide)
    (by intro d hd; injection hd with h; subst h; decide)

/-- C9: when two supplied inputs share a base name — here the DSM and the
CLS — their staged paths coincide, both staging copies target the same
file in the working directory, the later copy overwrites the earlier one's
content, and both logical roles subsequently refer to the same staged
file. -/
theorem c9_basename_collision (gf : String → String → String)
    (crsOf : String → String) (dirs : String → Bool)
    (secStr fracStr : String) (args : Args) (r : MainResult)
    (reproj : Nat → String → Nat) (toF32 : Nat → Nat) (cfgC : Nat) (fs : FS)
    (hrun : mainRun gf crsOf dirs secStr fracStr args = Except.ok r)
    (hbn : basename args.dsm = basename args.cls)
    (hne : args.cls ≠ r.test_cls) :
    r.test_dsm = r.test_cls ∧
    Step.copy args.dsm r.test_dsm ∈ r.steps ∧
    Step.copy args.cls r.test_cls ∈ r.steps ∧
    applySteps reproj toF32 cfgC fs
      [Step.copy args.dsm r.test_dsm, Step.copy args.cls r.test_cls]
      r.test_dsm = fs args.cls := by
  obtain ⟨mks, hw, hsteps, hdsm, hcls, -, -, -⟩ := mainRun_ok hrun
  have htd : r.test_dsm = r.test_cls := by
    rw [hdsm, hcls]
    unfold stagedPath
    rw [hbn]
  refine ⟨htd, ?_, ?_, ?_⟩
  · rw [hsteps, hdsm]
    exact List.mem_append_right _ (mem_restSteps.mpr
      (Or.inl (mem_copySteps.mpr (Or.inl rfl))))
  · rw [hsteps, hcls]
    exact List.mem_append_right _ (mem_restSteps.mpr
      (Or.inl (mem_copySteps.mpr (Or.inr (Or.inl rfl)))))
  · rw [htd]
    simp [applySteps, applyStep, hne]

/-- Witness for C9: DSM `a/x.tif` and CLS `b/x.tif` both stage to
`out/x.tif`; after both copies the staged file holds the CLS content. -/
theorem c9_witness :
    resC.test_dsm = resC.test_cls ∧
    Step.copy argsC.dsm resC.test_dsm ∈ resC.steps ∧
    Step.copy argsC.cls resC.test_cls ∈ resC.steps ∧
    applySteps (fun v _ => v) (fun v => v) 7
      (fun q => if q = "a/x.tif" then some 1 else
        if q = "b/x.tif" then some 2 else none)
      [Step.copy argsC.dsm resC.test_dsm, Step.copy argsC.cls resC.test_cls]
      resC.test_dsm =
      (fun q => if q = "a/x.tif" then some 1 else
        if q = "b/x.tif" then some 2 else none) argsC.cls :=
  c9_basename_collision gfW crsW dirsW "17" "5" argsC resC
    (fun v _ => v) (fun v => v) 7 _ (by rfl) (by decide) (by decide)

theorem takeWhile_ne_dot_append (d rest : List Char)
    (h : ∀ c ∈ d, c ≠ '.') :
    List.takeWhile (fun c => decide (c ≠ '.')) (d ++ '.' :: rest) = d := by
  induction d with
  | nil => simp
  | cons c r ih =>
      have hc : c ≠ '.' := h c (by simp)
      have ih2 := ih fun x hx => h x (List.mem_cons_of_mem _ hx)
      rw [List.cons_append, List.takeWhile_cons]
      rw [show (decide (c ≠ '.')) = true from by simp [hc]]
      rw [ih2]
      simp

theorem strBeforeDot_append (secStr fracStr : String)
    (h : ∀ c ∈ secStr.data, c ≠ '.') :
    strBeforeDot (secStr ++ "." ++ fracStr) = secStr := by
  cases secStr with
  | mk d =>
      simp only [strBeforeDot]
      have hdata : (String.mk d ++ "." ++ fracStr).data =
          d ++ '.' :: fracStr.data := by
        simp
      rw [hdata, takeWhile_ne_dot_append d fracStr.data h]

/-- C10: without an explicit output directory the working directory is
named `metrics-` followed by the clock's whole-seconds digits and created
with a bare, non-idempotent mkdir; two runs reading the same whole second
compute the same name, so once the first has created the directory the
second fails with `FileExistsError` instead of reusing it or picking a
fresh name. -/
theorem c10_timestamp_collision (gf : String → String → String)
    (crsOf : String → String) (dirs : String → Bool)
    (secStr frac1 frac2 : String) (args1 args2 : Args)
    (h1 : args1.output_dir = none) (h2 : args2.output_dir = none)
    (hsec : ∀ c ∈ secStr.data, c ≠ '.')
    (hfree : dirs ("metrics-" ++ secStr) = false) :
    (∃ r, mainRun gf crsOf dirs secStr frac1 args1 = Except.ok r ∧
      r.wd = "metrics-" ++ secStr ∧
      Step.mkdir ("metrics-" ++ secStr) ∈ r.steps) ∧
    mainRun gf crsOf (fun p => p = "metrics-" ++ secStr || dirs p)
      secStr frac2 args2 = Except.error PyError.fileExistsError := by
  have hn1 := strBeforeDot_append secStr frac1 hsec
  have hn2 := strBeforeDot_append secStr frac2 hsec
  constructor
  · have hcw : create_working_dir secStr frac1 dirs =
        Except.ok ("metrics-" ++ secStr) := by
      simp [create_working_dir, hn1, hfree]
    have hw : workingDirOf dirs secStr frac1 args1 =
        Except.ok ("metrics-" ++ secStr,
          [Step.mkdir ("metrics-" ++ secStr)]) := by
      simp [workingDirOf, h1, hcw, Except.map]
    have hrun : mainRun gf crsOf dirs secStr frac1 args1 = Except.ok
        { wd := "metrics-" ++ secStr,
          test_dsm := stagedPath ("metrics-" ++ secStr) args1.dsm,
          test_cls := stagedPath ("metrics-" ++ secStr) args1.cls,
          test_mtl := stagedMtl args1 ("metrics-" ++ secStr),
          test_dtm := stagedDtm args1 ("metrics-" ++ secStr),
          cfg := cfgPath gf args1 ("metrics-" ++ secStr),
          steps := [Step.mkdir ("metrics-" ++ secStr)] ++
            restSteps gf crsOf args1 ("metrics-" ++ secStr) } := by
      unfold mainRun
      rw [hw]
      rfl
    exact ⟨_, hrun, rfl, by simp⟩
  · have hcw : create_working_dir secStr frac2
        (fun p => p = "metrics-" ++ secStr || dirs p) =
        Except.error PyError.fileExistsError := by
      simp [create_working_dir, hn2]
    simp [mainRun, workingDirOf, h2, hcw, Except.map]

/-- Witness for C10: two runs at whole second `17`; the first creates
`metrics-17`, the second fails with `FileExistsError`. -/
theorem c10_witness :
    (∃ r, mainRun gfW crsW (fun _ => false) "17" "5" argsT = Except.ok r ∧
      r.wd = "metrics-" ++ "17" ∧
      Step.mkdir ("metrics-" ++ "17") ∈ r.steps) ∧
    mainRun gfW crsW (fun p => p = "metrics-" ++ "17" || (fun _ => false) p)
      "17" "9" argsT = Except.error PyError.fileExistsError :=
  c10_timestamp_collision gfW crsW (fun _ => false) "17" "5" "9" argsT argsT
    rfl rfl (by decide) (by decide)

end RunMetrics
